import Mathlib

/-!
Verification of the AlphaNPI list environments (`environments/list_env.py`).

This file gives a shallow embedding of the two sorting task environments of the
repository — `ListEnv` (bubble-sort variant, two pointers) and
`QuickSortListEnv` (quicksort variant, three pointers plus an integer stack) —
and proves or refutes the frozen specification claims about them.

Modelling conventions:
* A numpy scratchpad of digits is a `List ℤ`; `np.array_equal` on 1-D integer
  arrays is list equality.
* Pointer registers and stack cells are `ℤ`, exactly as Python integers
  (so e.g. `p2 - 1` may be `-1`, as in the source).
* `arr[i]` / `arr[i] = v` are `zget` / `zset`, which model Python indexing
  including the negative-index wrap `arr[-k] = arr[len-k]`; accesses outside
  `[-len, len)` (an `IndexError` in Python) do not occur under the bounds
  hypotheses of the theorems below.
* The simultaneous numpy swap `arr[[i, j]] = arr[[j, i]]` is `zswap`.
* Random sampling in `reset_env` is modelled by a predicate characterising the
  set of states the sampler can produce (a draw is possible iff the predicate
  holds); a branch of `reset_env` that raises has an empty outcome predicate,
  matching the fact that the raise happens before `has_been_reset` is set.
-/

namespace ListEnvModel

/-- Python-style list read `l[i]`, including negative-index wrap. -/
def zget (l : List ℤ) (i : ℤ) : ℤ :=
  if i < 0 then l.getD (l.length - (-i).toNat) 0 else l.getD i.toNat 0

/-- Python-style list write `l[i] = v`, including negative-index wrap. -/
def zset (l : List ℤ) (i : ℤ) (v : ℤ) : List ℤ :=
  if i < 0 then l.set (l.length - (-i).toNat) v else l.set i.toNat v

/-- The numpy fancy-indexing swap `arr[[i, j]] = arr[[j, i]]`: the right-hand
side `(arr[j], arr[i])` is read first, then written to positions `i` and `j`.
For `i = j` this leaves the array unchanged, as in numpy. -/
def zswap (l : List ℤ) (i j : ℤ) : List ℤ :=
  let vi := zget l i
  let vj := zget l j
  zset (zset l i vj) j vi

@[simp] theorem zset_length (l : List ℤ) (i v : ℤ) : (zset l i v).length = l.length := by
  unfold zset; split <;> simp

@[simp] theorem zswap_length (l : List ℤ) (i j : ℤ) : (zswap l i j).length = l.length := by
  unfold zswap; simp

/-- `range(a, b)` over Python integers. -/
def pyRange (a b : ℤ) : List ℤ :=
  (List.range (b - a).toNat).map (fun k => a + (k : ℤ))

/-- State of `ListEnv`: scratchpad plus two pointer registers
(`scratchpad_ints`, `p1_pos`, `p2_pos`). -/
structure BState where
  scratch : List ℤ
  p1 : ℤ
  p2 : ℤ
deriving DecidableEq, Repr

/-- State of `QuickSortListEnv`: scratchpad, three pointer registers and the
program stack (`scratchpad_ints`, `p1_pos`, `p2_pos`, `p3_pos`, `prog_stack`). -/
structure QState where
  scratch : List ℤ
  p1 : ℤ
  p2 : ℤ
  p3 : ℤ
  stack : List ℤ
deriving DecidableEq, Repr

/-- `ListEnv.compare_state`: `np.array_equal` on the scratchpads and equality
of both pointers. -/
def bCompareState (s t : BState) : Bool :=
  decide (s.scratch = t.scratch) && decide (s.p1 = t.p1) && decide (s.p2 = t.p2)

/-- `QuickSortListEnv.compare_state`: `np.array_equal` on the scratchpads and
equality of the three pointers and of the stack. -/
def qCompareState (s t : QState) : Bool :=
  decide (s.scratch = t.scratch) && decide (s.p1 = t.p1) && decide (s.p2 = t.p2)
    && decide (s.p3 = t.p3) && decide (s.stack = t.stack)

theorem bCompareState_eq_true_iff (s t : BState) : bCompareState s t = true ↔ s = t := by
  unfold bCompareState
  constructor
  · intro h
    simp only [Bool.and_eq_true, decide_eq_true_eq] at h
    obtain ⟨⟨h1, h2⟩, h3⟩ := h
    cases s; cases t; simp_all
  · rintro rfl; simp

theorem qCompareState_eq_true_iff (s t : QState) : qCompareState s t = true ↔ s = t := by
  unfold qCompareState
  constructor
  · intro h
    simp only [Bool.and_eq_true, decide_eq_true_eq] at h
    obtain ⟨⟨⟨⟨h1, h2⟩, h3⟩, h4⟩, h5⟩ := h
    cases s; cases t; simp_all
  · rintro rfl; simp

/-! ## Primitive actions (`prog_to_func`) -/

/-- `ListEnv._ptr_1_left`. -/
def bPtr1Left (s : BState) : BState := if s.p1 > 0 then { s with p1 := s.p1 - 1 } else s

/-- `ListEnv._ptr_2_left`. -/
def bPtr2Left (s : BState) : BState := if s.p2 > 0 then { s with p2 := s.p2 - 1 } else s

/-- `ListEnv._ptr_1_right` (length `L`). -/
def bPtr1Right (L : ℕ) (s : BState) : BState :=
  if s.p1 < (L : ℤ) - 1 then { s with p1 := s.p1 + 1 } else s

/-- `ListEnv._ptr_2_right` (length `L`). -/
def bPtr2Right (L : ℕ) (s : BState) : BState :=
  if s.p2 < (L : ℤ) - 1 then { s with p2 := s.p2 + 1 } else s

/-- `ListEnv._swap`. -/
def bSwap (s : BState) : BState := { s with scratch := zswap s.scratch s.p1 s.p2 }

/-- `QuickSortListEnv._ptr_1_left`. -/
def qPtr1Left (s : QState) : QState := if s.p1 > 0 then { s with p1 := s.p1 - 1 } else s

/-- `QuickSortListEnv._ptr_2_left`. -/
def qPtr2Left (s : QState) : QState := if s.p2 > 0 then { s with p2 := s.p2 - 1 } else s

/-- `QuickSortListEnv._ptr_3_left`. -/
def qPtr3Left (s : QState) : QState := if s.p3 > 0 then { s with p3 := s.p3 - 1 } else s

/-- `QuickSortListEnv._ptr_1_right` (length `L`). -/
def qPtr1Right (L : ℕ) (s : QState) : QState :=
  if s.p1 < (L : ℤ) - 1 then { s with p1 := s.p1 + 1 } else s

/-- `QuickSortListEnv._ptr_2_right` (length `L`). -/
def qPtr2Right (L : ℕ) (s : QState) : QState :=
  if s.p2 < (L : ℤ) - 1 then { s with p2 := s.p2 + 1 } else s

/-- `QuickSortListEnv._ptr_3_right` (length `L`). -/
def qPtr3Right (L : ℕ) (s : QState) : QState :=
  if s.p3 < (L : ℤ) - 1 then { s with p3 := s.p3 + 1 } else s

/-- `QuickSortListEnv._swap` (pointers 1 and 2). -/
def qSwap (s : QState) : QState := { s with scratch := zswap s.scratch s.p1 s.p2 }

/-- `QuickSortListEnv._swap_2` (pointers 2 and 3). -/
def qSwap2 (s : QState) : QState := { s with scratch := zswap s.scratch s.p2 s.p3 }

/-- `QuickSortListEnv._swap_3` (pointers 3 and 1). -/
def qSwap3 (s : QState) : QState := { s with scratch := zswap s.scratch s.p3 s.p1 }

/-- `QuickSortListEnv._push`: appends `p3+1, p2, p3+1` when `p3+1 < p2`, then
`p1, p3-1, p1` when `p3-1 > 0` (Python list `append`s, in source order). -/
def qPush (s : QState) : QState :=
  let st1 := if s.p3 + 1 < s.p2 then s.stack ++ [s.p3 + 1, s.p2, s.p3 + 1] else s.stack
  let st2 := if s.p3 - 1 > 0 then st1 ++ [s.p1, s.p3 - 1, s.p1] else st1
  { s with stack := st2 }

/-- `QuickSortListEnv._pop`: if the stack holds at least three elements, three
Python `pop()`s (each removing the *last* element) load `p1`, `p2`, `p3` in
that order; otherwise nothing happens. -/
def qPop (s : QState) : QState :=
  if 3 ≤ s.stack.length then
    let a := s.stack.getLastD 0
    let st1 := s.stack.dropLast
    let b := st1.getLastD 0
    let st2 := st1.dropLast
    let c := st2.getLastD 0
    let st3 := st2.dropLast
    { s with p1 := a, p2 := b, p3 := c, stack := st3 }
  else s

/-! ## Preconditions (`prog_to_precondition`), as needed by the claims -/

/-- `_ptr_1_left_precondition` (both variants read `p1_pos > 0`). -/
def ptr1LeftPre (p1 : ℤ) : Prop := p1 > 0

/-- `_ptr_1_right_precondition` (both variants read `p1_pos < length - 1`). -/
def ptr1RightPre (L : ℕ) (p1 : ℤ) : Prop := p1 < (L : ℤ) - 1

/-- `_swap_precondition` / `_swap_2_precondition` / `_swap_3_precondition`:
the two referenced pointers differ. -/
def swapPre (pa pb : ℤ) : Prop := pa ≠ pb

/-- `QuickSortListEnv._pop_precondition`. -/
def qPopPre (s : QState) : Prop := 3 ≤ s.stack.length

/-! ## Postconditions (`prog_to_postcondition`) -/

/-- The slice comparison `np.all(arr[:L-1] <= arr[1:L])` used by the
`BUBBLESORT`/`QUICKSORT` postconditions. -/
def npSliceSorted (L : ℕ) (a : List ℤ) : Bool :=
  ((a.take (L - 1)).zip ((a.drop 1).take (L - 1))).all (fun p => decide (p.1 ≤ p.2))

/-- `ListEnv._bubblesort_postcondition`: only the resulting scratchpad is
inspected; the snapshot and the resulting pointers are ignored. -/
def bBubblesortPost (L : ℕ) (_init st : BState) : Bool := npSliceSorted L st.scratch

/-- `QuickSortListEnv._quicksort_postcondition`: only the resulting scratchpad
is inspected; the snapshot, resulting pointers and stack are ignored. -/
def qQuicksortPost (L : ℕ) (_init st : QState) : Bool := npSliceSorted L st.scratch

/-- The single pass `for idx in range(0, L-1): if a[idx+1] < a[idx]: swap`
of `ListEnv._bubble_postcondition`. -/
def bubblePass (L : ℕ) (a : List ℤ) : List ℤ :=
  (List.range (L - 1)).foldl
    (fun a idx =>
      if zget a ((idx : ℤ) + 1) < zget a (idx : ℤ) then zswap a (idx : ℤ) ((idx : ℤ) + 1) else a)
    a

/-- `ListEnv._bubble_postcondition`: the reference applies one adjacent
compare-and-swap pass to the snapshot scratchpad, forces both pointers to
`length - 1`, and compares with the resulting state. -/
def bBubblePost (L : ℕ) (init st : BState) : Bool :=
  bCompareState st ⟨bubblePass L init.scratch, (L : ℤ) - 1, (L : ℤ) - 1⟩

/-- `ListEnv._lshift_postcondition`. -/
def bLshiftPost (init st : BState) : Bool :=
  decide (init.scratch = st.scratch)
    && (if init.p1 > 0 then decide (st.p1 = init.p1 - 1) else decide (st.p1 = init.p1))
    && (if init.p2 > 0 then decide (st.p2 = init.p2 - 1) else decide (st.p2 = init.p2))

/-- `ListEnv._rshift_postcondition`. -/
def bRshiftPost (L : ℕ) (init st : BState) : Bool :=
  decide (init.scratch = st.scratch)
    && (if init.p1 < (L : ℤ) - 1 then decide (st.p1 = init.p1 + 1) else decide (st.p1 = init.p1))
    && (if init.p2 < (L : ℤ) - 1 then decide (st.p2 = init.p2 + 1) else decide (st.p2 = init.p2))

/-- `QuickSortListEnv._lshift_postcondition`.  Faithful to the source bug: line
707 reads `bool = (init_stack == stack)` with `=` rather than `&=`, so the
scratchpad comparison of line 706 is computed and then discarded. -/
def qLshiftPost (init st : QState) : Bool :=
  -- line 706: `bool = np.array_equal(init_scratchpad_ints, scratchpad_ints)` —
  -- its value is overwritten by the next statement and never used.
  decide (init.stack = st.stack)
    && (if init.p1 > 0 then decide (st.p1 = init.p1 - 1) else decide (st.p1 = init.p1))
    && (if init.p2 > 0 then decide (st.p2 = init.p2 - 1) else decide (st.p2 = init.p2))
    && (if init.p3 > 0 then decide (st.p3 = init.p3 - 1) else decide (st.p3 = init.p3))

/-- `QuickSortListEnv._rshift_postcondition` (this one does conjoin the
scratchpad and stack comparisons with `&=`). -/
def qRshiftPost (L : ℕ) (init st : QState) : Bool :=
  decide (init.scratch = st.scratch) && decide (init.stack = st.stack)
    && (if init.p1 < (L : ℤ) - 1 then decide (st.p1 = init.p1 + 1) else decide (st.p1 = init.p1))
    && (if init.p2 < (L : ℤ) - 1 then decide (st.p2 = init.p2 + 1) else decide (st.p2 = init.p2))
    && (if init.p3 < (L : ℤ) - 1 then decide (st.p3 = init.p3 + 1) else decide (st.p3 = init.p3))

/-- The body of the loop in `QuickSortListEnv._compswap_partition_postcondition`:
at scan index `idx`, if `a[idx] < a[p2]` then `p1` is incremented and
`a[[p1, idx]] = a[[idx, p1]]` is performed (with the already incremented `p1`). -/
def cpSweepStep (p2 : ℤ) : List ℤ × ℤ → ℤ → List ℤ × ℤ
  | (a, p1), idx =>
    if zget a idx < zget a p2 then (zswap (a) (p1 + 1) idx, p1 + 1) else (a, p1)

/-- The full loop `for idx in range(p1, p2)` of
`_compswap_partition_postcondition`, returning the transformed scratchpad and
the final value of the mutated `p1`. -/
def cpSweep (a : List ℤ) (p1 p2 : ℤ) : List ℤ × ℤ :=
  (pyRange p1 p2).foldl (cpSweepStep p2) (a, p1)

/-- `QuickSortListEnv._compswap_partition_postcondition` (the function that
`check_postcondition('COMPSWAP_PARTITION', ...)` dispatches to, per the
`prog_to_postcondition` table built at lines 506–512): the reference sweeps the
snapshot scratchpad over `range(p1, p2)` with `cpSweepStep`, keeps `p2` and the
stack, sets `p3 = p2 - 1`, and compares with the resulting state. -/
def qCompswapPartitionPost (init st : QState) : Bool :=
  let r := cpSweep init.scratch init.p1 init.p2
  qCompareState st ⟨r.1, r.2, init.p2, init.p2 - 1, init.stack⟩

/-- `QuickSortListEnv._partition_postcondition`: its body executes
`arr, l, h, j = _partition(new_scratchpad_ints)`, but `_partition` is not a
name in scope there (the method of that name would be `self._partition`, and
its signature takes four positional arguments anyway), so every call raises
`NameError` before producing a boolean.  The embedding returns `none` for
"raises". -/
def qPartitionPost (_init _st : QState) : Option Bool := none

/-! ## Program registry (`programs_library` and index assignment) -/

/-- Code-point comparison of character lists: the lexicographic string order
used by Python's `sorted` on the program names (all of which are ASCII). -/
def charListLt : List Char → List Char → Bool
  | [], [] => false
  | [], _ :: _ => true
  | _ :: _, [] => false
  | a :: as, b :: bs =>
    if a.toNat < b.toNat then true
    else if b.toNat < a.toNat then false
    else charListLt as bs

/-- `s < t` on strings by code points, as Python compares `str`. -/
def strLt (s t : String) : Bool := charListLt s.data t.data

/-- Insertion step of the sort applied to the key list. -/
def insertName (a : String) : List String → List String
  | [] => [a]
  | b :: bs => if strLt a b then a :: b :: bs else b :: insertName a bs

/-- `sorted(list(self.programs_library.keys()))`: the program names in
ascending lexicographic order. -/
def sortNames (l : List String) : List String := l.foldr insertName []

/-- The index assigned to `name` by
`for idx, key in enumerate(sorted(...)): programs_library[key]['index'] = idx`:
its position in the sorted key list. -/
def progIndex (names : List String) (name : String) : ℕ :=
  (sortNames names).indexOf name

/-- Program names of the hierarchical `ListEnv` configuration
(lines 52–63), in source order. -/
def bubbleHierNames : List String :=
  ["PTR_1_LEFT", "STOP", "PTR_2_LEFT", "PTR_1_RIGHT", "PTR_2_RIGHT", "SWAP",
   "RSHIFT", "LSHIFT", "COMPSWAP", "RESET", "BUBBLE", "BUBBLESORT"]

/-- Program names of the flat (`hierarchy=False`) `ListEnv` configuration
(lines 97–103). -/
def bubbleFlatNames : List String :=
  ["PTR_1_LEFT", "STOP", "PTR_2_LEFT", "PTR_1_RIGHT", "PTR_2_RIGHT", "SWAP", "BUBBLESORT"]

/-- Program names of the hierarchical `QuickSortListEnv` configuration
(lines 450–469), in source order (the commented-out entries are absent). -/
def quickHierNames : List String :=
  ["PTR_1_LEFT", "STOP", "PTR_2_LEFT", "PTR_1_RIGHT", "PTR_2_RIGHT",
   "PTR_3_LEFT", "PTR_3_RIGHT", "SWAP", "SWAP_2", "SWAP_3", "PUSH", "POP",
   "RSHIFT", "LSHIFT", "COMPSWAP_PARTITION", "RESET", "PARTITION", "QUICKSORT"]

/-- Program names of the flat (`hierarchy=False`) `QuickSortListEnv`
configuration (lines 517–523). -/
def quickFlatNames : List String :=
  ["PTR_1_LEFT", "STOP", "PTR_2_LEFT", "PTR_1_RIGHT", "PTR_2_RIGHT", "SWAP", "BUBBLESORT"]

/-! ## The task sampler (`reset_env`) -/

/-- The tasks for which `ListEnv.reset_env` has a sampling branch; any other
task name falls through to `raise NotImplementedError` *before*
`has_been_reset` is set. -/
def bResetSupported (task : String) : Bool :=
  task == "BUBBLE" || task == "BUBBLESORT" || task == "RESET" || task == "LSHIFT"
    || task == "RSHIFT" || task == "COMPSWAP"

/-- The tasks for which `QuickSortListEnv.reset_env` has a sampling branch;
any other task name raises `NotImplementedError` before `has_been_reset` is
set. -/
def qResetSupported (task : String) : Bool :=
  task == "BUBBLE" || task == "BUBBLESORT" || task == "PARTITION"
    || task == "COMPSWAP_PARTITION" || task == "QUICKSORT" || task == "RESET"
    || task == "LSHIFT" || task == "RSHIFT" || task == "COMPSWAP"

/-- The scratchpad draw `np.random.randint(10, size=L)`: any list of `L`
digits. -/
def ScratchDraw (L : ℕ) (a : List ℤ) : Prop :=
  a.length = L ∧ ∀ v ∈ a, 0 ≤ v ∧ v < 10

instance (L : ℕ) (a : List ℤ) : Decidable (ScratchDraw L a) := by
  unfold ScratchDraw; infer_instance

/-- The possible results of a successful `ListEnv.reset_env` for a given task:
the scratchpad is a fresh digit draw and the pointers follow the sampling
branch of the task (rejection loops are modelled by excluding the rejected
configurations).  Tasks without a branch raise, so they have no outcome. -/
def bResetOutcome (L : ℕ) (task : String) (s : BState) : Prop :=
  ScratchDraw L s.scratch ∧
  (if task = "BUBBLE" ∨ task = "BUBBLESORT" then
    s.p1 = 0 ∧ s.p2 = 0
   else if task = "RESET" then
    (0 ≤ s.p1 ∧ s.p1 < (L : ℤ)) ∧ (0 ≤ s.p2 ∧ s.p2 < (L : ℤ)) ∧ ¬(s.p1 = 0 ∧ s.p2 = 0)
   else if task = "LSHIFT" then
    (0 ≤ s.p1 ∧ s.p1 < (L : ℤ)) ∧ (0 ≤ s.p2 ∧ s.p2 < (L : ℤ)) ∧ ¬(s.p1 = 0 ∧ s.p2 = 0)
   else if task = "RSHIFT" then
    (0 ≤ s.p1 ∧ s.p1 < (L : ℤ)) ∧ (0 ≤ s.p2 ∧ s.p2 < (L : ℤ)) ∧
      ¬(s.p1 = (L : ℤ) - 1 ∧ s.p2 = (L : ℤ) - 1)
   else if task = "COMPSWAP" then
    (0 ≤ s.p1 ∧ s.p1 < (L : ℤ) - 1) ∧ (s.p2 = s.p1 ∨ s.p2 = s.p1 + 1)
   else False)

instance (L : ℕ) (task : String) (s : BState) : Decidable (bResetOutcome L task s) := by
  unfold bResetOutcome; infer_instance

/-- The stack draw `list(np.random.randint(self.length-1, size=3*(self.length%2)))`
of `QuickSortListEnv.reset_env`: `3*(L%2)` values in `[0, L-2]`. -/
def StackDraw (L : ℕ) (st : List ℤ) : Prop :=
  st.length = 3 * (L % 2) ∧ ∀ v ∈ st, 0 ≤ v ∧ v < (L : ℤ) - 1

instance (L : ℕ) (st : List ℤ) : Decidable (StackDraw L st) := by
  unfold StackDraw; infer_instance

/-- The possible results of a successful `QuickSortListEnv.reset_env` for a
given task, as `bResetOutcome` but with three pointers and the stack draw. -/
def qResetOutcome (L : ℕ) (task : String) (s : QState) : Prop :=
  ScratchDraw L s.scratch ∧ StackDraw L s.stack ∧
  (if task = "BUBBLE" ∨ task = "BUBBLESORT" then
    s.p1 = 0 ∧ s.p2 = 0 ∧ s.p3 = 0
   else if task = "PARTITION" ∨ task = "COMPSWAP_PARTITION" then
    (1 ≤ s.p2 ∧ s.p2 < (L : ℤ)) ∧ (0 ≤ s.p1 ∧ s.p1 < s.p2) ∧ s.p3 = s.p1
   else if task = "QUICKSORT" then
    s.p1 = 0 ∧ s.p2 = (L : ℤ) - 1 ∧ s.p3 = 0
   else if task = "RESET" then
    (0 ≤ s.p1 ∧ s.p1 < (L : ℤ)) ∧ (0 ≤ s.p2 ∧ s.p2 < (L : ℤ)) ∧
      (0 ≤ s.p3 ∧ s.p3 < (L : ℤ)) ∧ ¬(s.p1 = 0 ∧ s.p2 = 0 ∧ s.p3 = 0)
   else if task = "LSHIFT" then
    (0 ≤ s.p1 ∧ s.p1 < (L : ℤ)) ∧ (0 ≤ s.p2 ∧ s.p2 < (L : ℤ)) ∧
      (0 ≤ s.p3 ∧ s.p3 < (L : ℤ)) ∧ ¬(s.p1 = 0 ∧ s.p2 = 0 ∧ s.p3 = 0)
   else if task = "RSHIFT" then
    (0 ≤ s.p1 ∧ s.p1 < (L : ℤ)) ∧ (0 ≤ s.p2 ∧ s.p2 < (L : ℤ)) ∧
      (0 ≤ s.p3 ∧ s.p3 < (L : ℤ)) ∧
      ¬(s.p1 = (L : ℤ) - 1 ∧ s.p2 = (L : ℤ) - 1 ∧ s.p3 = (L : ℤ) - 1)
   else if task = "COMPSWAP" then
    (0 ≤ s.p1 ∧ s.p1 < (L : ℤ) - 1) ∧ (s.p2 = s.p1 ∨ s.p2 = s.p1 + 1) ∧ s.p3 = 0
   else False)

instance (L : ℕ) (task : String) (s : QState) : Decidable (qResetOutcome L task s) := by
  unfold qResetOutcome; infer_instance

/-! ## Reachability by gated primitive actions -/

/-- One primitive `ListEnv` action, executed in a state where its
precondition holds (`STOP` is always legal and does nothing). -/
inductive BStep (L : ℕ) : BState → BState → Prop
  | stop (s : BState) : BStep L s s
  | p1l (s : BState) : ptr1LeftPre s.p1 → BStep L s (bPtr1Left s)
  | p2l (s : BState) : ptr1LeftPre s.p2 → BStep L s (bPtr2Left s)
  | p1r (s : BState) : ptr1RightPre L s.p1 → BStep L s (bPtr1Right L s)
  | p2r (s : BState) : ptr1RightPre L s.p2 → BStep L s (bPtr2Right L s)
  | swap (s : BState) : swapPre s.p1 s.p2 → BStep L s (bSwap s)

/-- States of `ListEnv` reachable from a successful `reset_env` by primitive
actions each executed when its precondition holds. -/
inductive BReach (L : ℕ) : BState → Prop
  | reset (task : String) (s : BState) : bResetOutcome L task s → BReach L s
  | step {s t : BState} : BReach L s → BStep L s t → BReach L t

/-- One primitive `QuickSortListEnv` action, executed in a state where its
precondition holds. -/
inductive QStep (L : ℕ) : QState → QState → Prop
  | stop (s : QState) : QStep L s s
  | p1l (s : QState) : ptr1LeftPre s.p1 → QStep L s (qPtr1Left s)
  | p2l (s : QState) : ptr1LeftPre s.p2 → QStep L s (qPtr2Left s)
  | p3l (s : QState) : ptr1LeftPre s.p3 → QStep L s (qPtr3Left s)
  | p1r (s : QState) : ptr1RightPre L s.p1 → QStep L s (qPtr1Right L s)
  | p2r (s : QState) : ptr1RightPre L s.p2 → QStep L s (qPtr2Right L s)
  | p3r (s : QState) : ptr1RightPre L s.p3 → QStep L s (qPtr3Right L s)
  | swap (s : QState) : swapPre s.p1 s.p2 → QStep L s (qSwap s)
  | swap2 (s : QState) : swapPre s.p2 s.p3 → QStep L s (qSwap2 s)
  | swap3 (s : QState) : swapPre s.p3 s.p1 → QStep L s (qSwap3 s)
  | push (s : QState) : QStep L s (qPush s)
  | pop (s : QState) : qPopPre s → QStep L s (qPop s)

/-- States of `QuickSortListEnv` reachable from a successful `reset_env` by
primitive actions each executed when its precondition holds. -/
inductive QReach (L : ℕ) : QState → Prop
  | reset (task : String) (s : QState) : qResetOutcome L task s → QReach L s
  | step {s t : QState} : QReach L s → QStep L s t → QReach L t

/-- The invariant of claim C7 for the bubble-sort variant: both pointers in
`[0, L-1]` and the scratchpad still of construction length `L`. -/
def BInv (L : ℕ) (s : BState) : Prop :=
  (0 ≤ s.p1 ∧ s.p1 ≤ (L : ℤ) - 1) ∧ (0 ≤ s.p2 ∧ s.p2 ≤ (L : ℤ) - 1) ∧
    s.scratch.length = L

instance (L : ℕ) (s : BState) : Decidable (BInv L s) := by
  unfold BInv; infer_instance

/-- The invariant of claim C7 for the quicksort variant: all three pointers in
`[0, L-1]`, scratchpad of length `L`, stack length a multiple of `3`, and
(strengthening needed for the induction through `POP`) every stack cell in
`[0, L-1]`. -/
def QInv (L : ℕ) (s : QState) : Prop :=
  (0 ≤ s.p1 ∧ s.p1 ≤ (L : ℤ) - 1) ∧ (0 ≤ s.p2 ∧ s.p2 ≤ (L : ℤ) - 1) ∧
    (0 ≤ s.p3 ∧ s.p3 ≤ (L : ℤ) - 1) ∧ s.scratch.length = L ∧
    s.stack.length % 3 = 0 ∧ ∀ v ∈ s.stack, 0 ≤ v ∧ v ≤ (L : ℤ) - 1

instance (L : ℕ) (s : QState) : Decidable (QInv L s) := by
  unfold QInv; infer_instance

/-! ## Spec-side reference definitions (for refinement comparison only) -/

/-- Modelled from the spec: the *single* comparison-swap step that the spec's
`COMPSWAP_PARTITION` paragraph describes (and that the commented-out
`_compswap_postcondition` would compute): if `p1 == p2` and `p2` is not at the
right boundary, `p2` is first advanced; then the elements at
`min p1 p2` / `max p1 p2` are compared and swapped iff out of order; `p3` and
the stack keep their snapshot values.  Used only to compare the claim's words
with the registered postcondition. -/
def compswapSpecStep (L : ℕ) (s : QState) : QState :=
  let p2' := if s.p1 = s.p2 ∧ s.p2 < (L : ℤ) - 1 then s.p2 + 1 else s.p2
  let lo := min s.p1 p2'
  let hi := max s.p1 p2'
  let a := if zget s.scratch lo > zget s.scratch hi then zswap s.scratch lo hi else s.scratch
  ⟨a, s.p1, p2', s.p3, s.stack⟩

/-- Modelled from the spec: `PUSH` as the claim words it — append
`(p3+1, p2, p3+1)` when the sub-range `[p3+1, p2]` is non-empty, then
`(p1, p3-1, p1)` when the sub-range `[p1, p3-1]` is non-empty.  Used only to
compare the claim's words with `qPush`. -/
def qPushSpec (s : QState) : QState :=
  let st1 := if s.p3 + 1 ≤ s.p2 then s.stack ++ [s.p3 + 1, s.p2, s.p3 + 1] else s.stack
  let st2 := if s.p1 ≤ s.p3 - 1 then st1 ++ [s.p1, s.p3 - 1, s.p1] else st1
  { s with stack := st2 }

/-! ## Claim C10: the BUBBLE postcondition -/

/-- Claim C10 (confirmed): in the hierarchical bubble-sort variant, the `BUBBLE`
postcondition accepts `(s, t)` exactly when the scratchpad of `t` is the
result of one full left-to-right adjacent compare-and-swap pass (indices `0`
through `L-2`) over the scratchpad of `s`, and both pointers of `t` equal
`L - 1`, regardless of the pointers of `s`. -/
theorem c10_bubble_post_characterisation (L : ℕ) (s t : BState) :
    bBubblePost L s t = true ↔
      t.scratch = bubblePass L s.scratch ∧ t.p1 = (L : ℤ) - 1 ∧ t.p2 = (L : ℤ) - 1 := by
  unfold bBubblePost
  rw [bCompareState_eq_true_iff]
  constructor
  · rintro rfl; exact ⟨rfl, rfl, rfl⟩
  · rintro ⟨h1, h2, h3⟩; cases t; simp_all

/-! ## Claim C1: the COMPSWAP_PARTITION postcondition -/

/-- Claim C1 (counterexample): the claim says
`check_postcondition('COMPSWAP_PARTITION', s, t)` accepts exactly the single
comparison-swap step.  Take the snapshot `s` with scratchpad `[1, 0, 2]`,
`p1 = p3 = 0`, `p2 = 2` and let `t` be the single comparison-swap step applied
to `s` (which changes nothing here, since `a[0] = 1 ≤ 2 = a[2]`): the claim
demands `true`, but the registered postcondition answers `false` (its
reference sweep produces scratchpad `[0, 2, 1]`, `p1 = 2`, `p3 = 1`). -/
theorem c1_counterexample :
    compswapSpecStep 3 ⟨[1, 0, 2], 0, 2, 0, []⟩ = ⟨[1, 0, 2], 0, 2, 0, []⟩ ∧
    qCompswapPartitionPost ⟨[1, 0, 2], 0, 2, 0, []⟩
      (compswapSpecStep 3 ⟨[1, 0, 2], 0, 2, 0, []⟩) = false := by decide

/-- Claim C1 (amended): `check_postcondition('COMPSWAP_PARTITION', s, t)`
returns true exactly when `t` equals the state obtained from the snapshot `s`
by the partition sweep of lines 780–783 — for each `idx` in `[p1, p2)`, if the
current `a[idx] < a[p2]` then `p1` is incremented and `a[p1]`, `a[idx]` are
swapped — with `p2` and the stack unchanged and `p3` set to `p2 - 1`. -/
theorem c1_compswap_partition_amended (s t : QState) :
    qCompswapPartitionPost s t = true ↔
      t.scratch = (cpSweep s.scratch s.p1 s.p2).1 ∧
      t.p1 = (cpSweep s.scratch s.p1 s.p2).2 ∧
      t.p2 = s.p2 ∧ t.p3 = s.p2 - 1 ∧ t.stack = s.stack := by
  unfold qCompswapPartitionPost
  rw [qCompareState_eq_true_iff]
  constructor
  · rintro rfl; exact ⟨rfl, rfl, rfl, rfl, rfl⟩
  · rintro ⟨h1, h2, h3, h4, h5⟩; cases t; simp_all

/-! ## Claim C2: the RSHIFT / LSHIFT postconditions -/

/-- Claim C2 (code bug): the quicksort variant's `_lshift_postcondition`
overwrites its scratchpad comparison (line 707 uses `=` where every sibling
uses `&=`), so it accepts a transition that *changes* the scratchpad — against
the claim's "returns true only if the scratchpad … of `t` equal[s] … `s`",
which is clearly the intent (spec §4.4, and the `&=` used by
`_rshift_postcondition` and by both `ListEnv` shift postconditions).  The
remaining conjuncts verify the claim's own RSHIFT example on the code, which
behaves as claimed. -/
theorem c2_shift_postconditions :
    qLshiftPost ⟨[0, 1], 1, 1, 1, []⟩ ⟨[1, 0], 0, 0, 0, []⟩ = true ∧
    ([1, 0] : List ℤ) ≠ [0, 1] ∧
    bRshiftPost 5 ⟨[9, 8, 7, 6, 5], 4, 2⟩ ⟨[9, 8, 7, 6, 5], 4, 3⟩ = true ∧
    bRshiftPost 5 ⟨[9, 8, 7, 6, 5], 4, 2⟩ ⟨[9, 8, 7, 6, 5], 4, 2⟩ = false ∧
    bRshiftPost 5 ⟨[9, 8, 7, 6, 5], 4, 2⟩ ⟨[9, 8, 7, 6, 5], 4, 4⟩ = false ∧
    qRshiftPost 5 ⟨[9, 8, 7, 6, 5], 4, 2, 0, [1]⟩ ⟨[9, 8, 7, 6, 5], 4, 3, 1, [1]⟩ = true ∧
    qRshiftPost 5 ⟨[9, 8, 7, 6, 5], 4, 2, 0, [1]⟩ ⟨[9, 8, 7, 6, 5], 4, 2, 1, [1]⟩ = false ∧
    qRshiftPost 5 ⟨[9, 8, 7, 6, 5], 4, 2, 0, [1]⟩ ⟨[9, 8, 7, 6, 5], 4, 4, 1, [1]⟩ = false := by
  decide

/-! ## Claim C3: the PARTITION postcondition -/

/-- Claim C3 (code bug): `check_postcondition('PARTITION', s, t)` never returns
a boolean — `_partition_postcondition` evaluates the unresolved free name
`_partition` and raises `NameError` on every call, instead of performing the
Lomuto partition pass the claim (and spec §4.4) describe.  In the embedding
the raise is `none`. -/
theorem c3_partition_post_raises (s t : QState) : qPartitionPost s t = none := rfl

/-! ## Claim C5: PUSH -/

/-- Claim C5 (counterexample): with `p1 = 2`, `p2 = 0`, `p3 = 2` the claim's
sub-range `[p1, p3-1] = [2, 1]` is empty, so the claim appends nothing; the
code's condition `p3 - 1 > 0` holds nevertheless, and `PUSH` appends
`(2, 1, 2)`.  Hence `qPush` differs from the claim's description
(`qPushSpec`) at this state. -/
theorem c5_counterexample :
    qPush ⟨[0, 0, 0], 2, 0, 2, []⟩ ≠ qPushSpec ⟨[0, 0, 0], 2, 0, 2, []⟩ ∧
    (qPush ⟨[0, 0, 0], 2, 0, 2, []⟩).stack = [2, 1, 2] := by decide

/-- Claim C5 (amended): executing `PUSH` appends to the stack, in order, the
triple `(p3+1, p2, p3+1)` exactly when `p3 + 1 < p2`, and then the triple
`(p1, p3-1, p1)` exactly when `p3 - 1 > 0`, and changes nothing else; in
particular, with `p1 = 1`, `p2 = 6`, `p3 = 3` exactly the two triples
reflecting the sub-ranges `[4, 6]` and `[1, 2]` are appended. -/
theorem c5_push_amended (s : QState) :
    (qPush s).scratch = s.scratch ∧ (qPush s).p1 = s.p1 ∧ (qPush s).p2 = s.p2 ∧
    (qPush s).p3 = s.p3 ∧
    (qPush s).stack = s.stack
      ++ (if s.p3 + 1 < s.p2 then [s.p3 + 1, s.p2, s.p3 + 1] else [])
      ++ (if s.p3 - 1 > 0 then [s.p1, s.p3 - 1, s.p1] else []) ∧
    (qPush ⟨[1, 4, 0, 2, 5, 7, 3], 1, 6, 3, []⟩).stack = [4, 6, 4, 1, 2, 1] := by
  refine ⟨rfl, rfl, rfl, rfl, ?_, by decide⟩
  unfold qPush
  dsimp only
  split_ifs <;> simp

/-! ## Claim C4: the BUBBLESORT / QUICKSORT postconditions -/

/-- Zipping against a truncated left list changes nothing once the right list
is at most as long as the truncation. -/
theorem zip_take_left_of_le :
    ∀ (xs ys : List ℤ) (n : ℕ), ys.length ≤ n → (xs.take n).zip ys = xs.zip ys := by
  intro xs
  induction xs with
  | nil => intro ys n _; simp
  | cons x xs' ih =>
    intro ys n hn
    cases ys with
    | nil => simp
    | cons y ys' =>
      cases n with
      | zero => simp at hn
      | succ m =>
        simp only [List.take_succ_cons, List.zip_cons_cons]
        rw [ih ys' m (by simpa using hn)]

/-- The adjacent-pairs check is the `Chain'`-sortedness of the list. -/
theorem all_zip_drop_iff_chain (a : List ℤ) :
    ((a.zip (a.drop 1)).all fun p => decide (p.1 ≤ p.2)) = true ↔
      a.Chain' (· ≤ ·) := by
  induction a with
  | nil => simp
  | cons x rest ih =>
    cases rest with
    | nil => simp
    | cons y t =>
      rw [List.chain'_cons, ← ih]
      simp only [List.drop_succ_cons, List.drop_zero, List.zip_cons_cons, List.all_cons,
        Bool.and_eq_true, decide_eq_true_eq]

/-- On a scratchpad of the construction length, the numpy slice comparison
`np.all(arr[:L-1] <= arr[1:L])` decides end-to-end sortedness. -/
theorem npSliceSorted_iff_chain (L : ℕ) (a : List ℤ) (ha : a.length = L) :
    npSliceSorted L a = true ↔ a.Chain' (· ≤ ·) := by
  unfold npSliceSorted
  have hdrop : (a.drop 1).take (L - 1) = a.drop 1 :=
    List.take_of_length_le (by simp [ha])
  rw [hdrop, zip_take_left_of_le a (a.drop 1) (L - 1) (by simp [ha])]
  exact all_zip_drop_iff_chain a

/-- Claim C4 (confirmed): in both variants, the `BUBBLESORT` (resp. `QUICKSORT`)
postcondition holds exactly when the resulting scratchpad is non-decreasing
end to end; the verdict depends neither on the snapshot nor on the resulting
pointers or stack. -/
theorem c4_sort_postconditions (L : ℕ) (s t : BState) (qs qt : QState)
    (ht : t.scratch.length = L) (hqt : qt.scratch.length = L) :
    (bBubblesortPost L s t = true ↔ t.scratch.Chain' (· ≤ ·)) ∧
    (qQuicksortPost L qs qt = true ↔ qt.scratch.Chain' (· ≤ ·)) ∧
    (∀ (s' u : BState), u.scratch = t.scratch →
      bBubblesortPost L s' u = bBubblesortPost L s t) ∧
    (∀ (qs' qu : QState), qu.scratch = qt.scratch →
      qQuicksortPost L qs' qu = qQuicksortPost L qs qt) := by
  refine ⟨npSliceSorted_iff_chain L t.scratch ht, npSliceSorted_iff_chain L qt.scratch hqt,
    ?_, ?_⟩
  · intro s' u hu; unfold bBubblesortPost; rw [hu]
  · intro qs' qu hqu; unfold qQuicksortPost; rw [hqu]

/-- Witness for C4 at `L = 5` with the spec's example lists. -/
theorem c4_sort_postconditions_witness :
    (bBubblesortPost 5 ⟨[3, 1, 4, 1, 5], 0, 0⟩ ⟨[1, 1, 3, 4, 5], 4, 4⟩ = true ↔
      ([1, 1, 3, 4, 5] : List ℤ).Chain' (· ≤ ·)) ∧
    (qQuicksortPost 5 ⟨[3, 1, 4, 1, 5], 0, 4, 0, []⟩ ⟨[1, 3, 1, 4, 5], 4, 4, 3, [0]⟩ = true ↔
      ([1, 3, 1, 4, 5] : List ℤ).Chain' (· ≤ ·)) :=
  ⟨(c4_sort_postconditions 5 ⟨[3, 1, 4, 1, 5], 0, 0⟩ ⟨[1, 1, 3, 4, 5], 4, 4⟩
      ⟨[3, 1, 4, 1, 5], 0, 4, 0, []⟩ ⟨[1, 3, 1, 4, 5], 4, 4, 3, [0]⟩ rfl rfl).1,
   (c4_sort_postconditions 5 ⟨[3, 1, 4, 1, 5], 0, 0⟩ ⟨[1, 1, 3, 4, 5], 4, 4⟩
      ⟨[3, 1, 4, 1, 5], 0, 4, 0, []⟩ ⟨[1, 3, 1, 4, 5], 4, 4, 3, [0]⟩ rfl rfl).2.1⟩

/-! ## Claim C6: POP -/

/-- Claim C6 (confirmed): when the stack holds at least three elements —
`stack = rest ++ [x, y, z]` — `POP` removes exactly the three most recently
appended elements, loading the last into `p1`, the second-to-last into `p2`
and the third-to-last into `p3`; a `POP` right after a `PUSH` that appended a
single triple restores exactly that triple (left bound, right bound, recursion
index) into `(p1, p2, p3)` and the original stack; with fewer than three
elements `POP` changes nothing. -/
theorem c6_pop (s : QState) (rest : List ℤ) (x y z : ℤ) :
    (s.stack = rest ++ [x, y, z] →
      qPop s = { s with p1 := z, p2 := y, p3 := x, stack := rest }) ∧
    (s.stack.length < 3 → qPop s = s) ∧
    (s.p3 + 1 < s.p2 → ¬(s.p3 - 1 > 0) →
      qPop (qPush s) = { s with p1 := s.p3 + 1, p2 := s.p2, p3 := s.p3 + 1 }) ∧
    (¬(s.p3 + 1 < s.p2) → s.p3 - 1 > 0 →
      qPop (qPush s) = { s with p1 := s.p1, p2 := s.p3 - 1, p3 := s.p1 }) := by
  have key : ∀ (t : QState) (r : List ℤ) (a b c : ℤ), t.stack = r ++ [a, b, c] →
      qPop t = { t with p1 := c, p2 := b, p3 := a, stack := r } := by
    intro t r a b c h
    have h3 : r ++ [a, b, c] = ((r ++ [a]) ++ [b]) ++ [c] := by simp
    unfold qPop
    rw [if_pos (by rw [h]; simp)]
    rw [h, h3]
    simp only [List.getLastD_concat, List.dropLast_concat]
  refine ⟨key s rest x y z, ?_, ?_, ?_⟩
  · intro hlen
    unfold qPop
    rw [if_neg (by omega)]
  · intro h1 h2
    have hpush : (qPush s).stack = s.stack ++ [s.p3 + 1, s.p2, s.p3 + 1] := by
      unfold qPush; dsimp only; rw [if_pos h1, if_neg h2]
    rw [key (qPush s) s.stack (s.p3 + 1) s.p2 (s.p3 + 1) hpush]
    simp [qPush]
  · intro h1 h2
    have hpush : (qPush s).stack = s.stack ++ [s.p1, s.p3 - 1, s.p1] := by
      unfold qPush; dsimp only; rw [if_neg h1, if_pos h2]
    rw [key (qPush s) s.stack s.p1 (s.p3 - 1) s.p1 hpush]
    simp [qPush]

/-- Witness for C6: a pop of a three-element stack, a pop of a short stack,
and the two push-then-pop round trips, on concrete states. -/
theorem c6_pop_witness :
    qPop ⟨[0], 0, 0, 0, [5, 7, 9]⟩ = ⟨[0], 9, 7, 5, []⟩ ∧
    qPop ⟨[0], 4, 5, 6, [1, 2]⟩ = ⟨[0], 4, 5, 6, [1, 2]⟩ ∧
    qPop (qPush ⟨[0, 1, 2, 3], 0, 3, 0, []⟩) = ⟨[0, 1, 2, 3], 1, 3, 1, []⟩ ∧
    qPop (qPush ⟨[0, 1, 2, 3], 0, 2, 3, []⟩) = ⟨[0, 1, 2, 3], 0, 2, 0, []⟩ := by
  refine ⟨?_, ?_, ?_, ?_⟩
  · exact (c6_pop ⟨[0], 0, 0, 0, [5, 7, 9]⟩ [] 5 7 9).1 rfl
  · exact (c6_pop ⟨[0], 4, 5, 6, [1, 2]⟩ [] 0 0 0).2.1 (by decide)
  · exact (c6_pop ⟨[0, 1, 2, 3], 0, 3, 0, []⟩ [] 0 0 0).2.2.1 (by decide) (by decide)
  · exact (c6_pop ⟨[0, 1, 2, 3], 0, 2, 3, []⟩ [] 0 0 0).2.2.2 (by decide) (by decide)

/-! ## Claim C9: registry index assignment -/

/-- Claim C9 (confirmed): for both variants and both hierarchy configurations,
the index stored for each program equals its 0-based rank in the lexicographic
ordering of that configuration's program names (the number of names strictly
smaller than it), and the assigned indices are exactly `0 .. N-1`. -/
theorem c9_registry_indices :
    (∀ n ∈ bubbleHierNames, progIndex bubbleHierNames n =
      (bubbleHierNames.filter (fun m => strLt m n)).length) ∧
    (∀ n ∈ bubbleFlatNames, progIndex bubbleFlatNames n =
      (bubbleFlatNames.filter (fun m => strLt m n)).length) ∧
    (∀ n ∈ quickHierNames, progIndex quickHierNames n =
      (quickHierNames.filter (fun m => strLt m n)).length) ∧
    (∀ n ∈ quickFlatNames, progIndex quickFlatNames n =
      (quickFlatNames.filter (fun m => strLt m n)).length) ∧
    List.Perm (bubbleHierNames.map (progIndex bubbleHierNames))
      (List.range bubbleHierNames.length) ∧
    List.Perm (bubbleFlatNames.map (progIndex bubbleFlatNames))
      (List.range bubbleFlatNames.length) ∧
    List.Perm (quickHierNames.map (progIndex quickHierNames))
      (List.range quickHierNames.length) ∧
    List.Perm (quickFlatNames.map (progIndex quickFlatNames))
      (List.range quickFlatNames.length) := by decide

/-- Witness for C9: the index of `PUSH` in the hierarchical quicksort
registry equals its lexicographic rank. -/
theorem c9_registry_indices_witness :
    progIndex quickHierNames "PUSH" =
      (quickHierNames.filter (fun m => strLt m "PUSH")).length :=
  c9_registry_indices.2.2.1 "PUSH" (by decide)

/-! ## Claim C8: reset_env task dispatch -/

/-- Claim C8 (confirmed): `reset_env` has a sampling branch exactly for the
claim's enumerated task set (per variant); for any other task it raises the
unsupported-task error before `has_been_reset` is set, so no reset outcome
exists; for every enumerated task (at any usable length `L ≥ 2`) a successful
reset outcome exists. -/
theorem c8_reset_dispatch (L : ℕ) (hL : 2 ≤ L) :
    (∀ task, bResetSupported task = true ↔
      task ∈ ["BUBBLE", "BUBBLESORT", "RESET", "LSHIFT", "RSHIFT", "COMPSWAP"]) ∧
    (∀ task, qResetSupported task = true ↔
      task ∈ ["BUBBLE", "BUBBLESORT", "RESET", "LSHIFT", "RSHIFT", "COMPSWAP",
              "PARTITION", "COMPSWAP_PARTITION", "QUICKSORT"]) ∧
    (∀ task, bResetSupported task = false → ∀ s, ¬ bResetOutcome L task s) ∧
    (∀ task, qResetSupported task = false → ∀ s, ¬ qResetOutcome L task s) ∧
    (∀ task, bResetSupported task = true → ∃ s, bResetOutcome L task s) ∧
    (∀ task, qResetSupported task = true → ∃ s, qResetOutcome L task s) := by
  have hscr : ScratchDraw L (List.replicate L 0) := by
    constructor
    · simp
    · intro v hv
      rw [List.eq_of_mem_replicate hv]
      omega
  have hstk : StackDraw L (List.replicate (3 * (L % 2)) 0) := by
    constructor
    · simp
    · intro v hv
      rw [List.eq_of_mem_replicate hv]
      omega
  refine ⟨?_, ?_, ?_, ?_, ?_, ?_⟩
  · intro task
    simp only [bResetSupported, Bool.or_eq_true, beq_iff_eq, List.mem_cons,
      List.not_mem_nil, or_false]
    tauto
  · intro task
    simp only [qResetSupported, Bool.or_eq_true, beq_iff_eq, List.mem_cons,
      List.not_mem_nil, or_false]
    tauto
  · intro task hsup s hout
    simp only [bResetSupported, Bool.or_eq_false_iff, beq_eq_false_iff_ne, ne_eq] at hsup
    obtain ⟨⟨⟨⟨⟨h1, h2⟩, h3⟩, h4⟩, h5⟩, h6⟩ := hsup
    obtain ⟨-, hbr⟩ := hout
    rw [if_neg (by tauto), if_neg h3, if_neg h4, if_neg h5, if_neg h6] at hbr
    exact hbr
  · intro task hsup s hout
    simp only [qResetSupported, Bool.or_eq_false_iff, beq_eq_false_iff_ne, ne_eq] at hsup
    obtain ⟨⟨⟨⟨⟨⟨⟨⟨h1, h2⟩, h3⟩, h4⟩, h5⟩, h6⟩, h7⟩, h8⟩, h9⟩ := hsup
    obtain ⟨-, -, hbr⟩ := hout
    rw [if_neg (by tauto), if_neg (by tauto), if_neg h5, if_neg h6, if_neg h7,
      if_neg h8, if_neg h9] at hbr
    exact hbr
  · intro task hsup
    simp only [bResetSupported, Bool.or_eq_true, beq_iff_eq] at hsup
    rcases hsup with ((((rfl | rfl) | rfl) | rfl) | rfl) | rfl
    · exact ⟨⟨List.replicate L 0, 0, 0⟩, hscr, by rw [if_pos (by tauto)]; exact ⟨rfl, rfl⟩⟩
    · exact ⟨⟨List.replicate L 0, 0, 0⟩, hscr, by rw [if_pos (by tauto)]; exact ⟨rfl, rfl⟩⟩
    · refine ⟨⟨List.replicate L 0, 1, 0⟩, hscr, ?_⟩
      rw [if_neg (by decide), if_pos rfl]
      refine ⟨⟨by norm_num, by push_cast; omega⟩, ⟨by norm_num, by push_cast; omega⟩, by simp⟩
    · refine ⟨⟨List.replicate L 0, 1, 0⟩, hscr, ?_⟩
      rw [if_neg (by decide), if_neg (by decide), if_pos rfl]
      refine ⟨⟨by norm_num, by push_cast; omega⟩, ⟨by norm_num, by push_cast; omega⟩, by simp⟩
    · refine ⟨⟨List.replicate L 0, 0, 0⟩, hscr, ?_⟩
      rw [if_neg (by decide), if_neg (by decide), if_neg (by decide), if_pos rfl]
      refine ⟨⟨by norm_num, by push_cast; omega⟩, ⟨by norm_num, by push_cast; omega⟩, ?_⟩
      rintro ⟨hp1, -⟩
      dsimp only at hp1
      omega
    · refine ⟨⟨List.replicate L 0, 0, 0⟩, hscr, ?_⟩
      rw [if_neg (by decide), if_neg (by decide), if_neg (by decide), if_neg (by decide),
        if_pos rfl]
      exact ⟨⟨by norm_num, by push_cast; omega⟩, Or.inl rfl⟩
  · intro task hsup
    simp only [qResetSupported, Bool.or_eq_true, beq_iff_eq] at hsup
    rcases hsup with (((((((rfl | rfl) | rfl) | rfl) | rfl) | rfl) | rfl) | rfl) | rfl
    · exact ⟨⟨List.replicate L 0, 0, 0, 0, List.replicate (3 * (L % 2)) 0⟩, hscr, hstk,
        by rw [if_pos (by tauto)]; exact ⟨rfl, rfl, rfl⟩⟩
    · exact ⟨⟨List.replicate L 0, 0, 0, 0, List.replicate (3 * (L % 2)) 0⟩, hscr, hstk,
        by rw [if_pos (by tauto)]; exact ⟨rfl, rfl, rfl⟩⟩
    · refine ⟨⟨List.replicate L 0, 0, 1, 0, List.replicate (3 * (L % 2)) 0⟩, hscr, hstk, ?_⟩
      rw [if_neg (by decide), if_pos (by tauto)]
      exact ⟨⟨by norm_num, by push_cast; omega⟩, ⟨by norm_num, by norm_num⟩, rfl⟩
    · refine ⟨⟨List.replicate L 0, 0, 1, 0, List.replicate (3 * (L % 2)) 0⟩, hscr, hstk, ?_⟩
      rw [if_neg (by decide), if_pos (by tauto)]
      exact ⟨⟨by norm_num, by push_cast; omega⟩, ⟨by norm_num, by norm_num⟩, rfl⟩
    · refine ⟨⟨List.replicate L 0, 0, (L : ℤ) - 1, 0, List.replicate (3 * (L % 2)) 0⟩,
        hscr, hstk, ?_⟩
      rw [if_neg (by decide), if_neg (by decide), if_pos rfl]
      exact ⟨rfl, rfl, rfl⟩
    · refine ⟨⟨List.replicate L 0, 1, 0, 0, List.replicate (3 * (L % 2)) 0⟩, hscr, hstk, ?_⟩
      rw [if_neg (by decide), if_neg (by decide), if_neg (by decide), if_pos rfl]
      refine ⟨⟨by norm_num, by push_cast; omega⟩, ⟨by norm_num, by push_cast; omega⟩,
        ⟨by norm_num, by push_cast; omega⟩, by simp⟩
    · refine ⟨⟨List.replicate L 0, 1, 0, 0, List.replicate (3 * (L % 2)) 0⟩, hscr, hstk, ?_⟩
      rw [if_neg (by decide), if_neg (by decide), if_neg (by decide), if_neg (by decide),
        if_pos rfl]
      refine ⟨⟨by norm_num, by push_cast; omega⟩, ⟨by norm_num, by push_cast; omega⟩,
        ⟨by norm_num, by push_cast; omega⟩, by simp⟩
    · refine ⟨⟨List.replicate L 0, 0, 0, 0, List.replicate (3 * (L % 2)) 0⟩, hscr, hstk, ?_⟩
      rw [if_neg (by decide), if_neg (by decide), if_neg (by decide), if_neg (by decide),
        if_neg (by decide), if_pos rfl]
      refine ⟨⟨by norm_num, by push_cast; omega⟩, ⟨by norm_num, by push_cast; omega⟩,
        ⟨by norm_num, by push_cast; omega⟩, ?_⟩
      rintro ⟨hp1, -⟩
      dsimp only at hp1
      omega
    · refine ⟨⟨List.replicate L 0, 0, 0, 0, List.replicate (3 * (L % 2)) 0⟩, hscr, hstk, ?_⟩
      rw [if_neg (by decide), if_neg (by decide), if_neg (by decide), if_neg (by decide),
        if_neg (by decide), if_neg (by decide), if_pos rfl]
      exact ⟨⟨by norm_num, by push_cast; omega⟩, Or.inl rfl, rfl⟩

/-- Witness for C8 at `L = 2`: `PARTITION` is unsupported in the bubble-sort
variant (no outcome) and supported in the quicksort variant (an outcome
exists). -/
theorem c8_reset_dispatch_witness :
    (¬ bResetOutcome 2 "PARTITION" ⟨[0, 0], 0, 0⟩) ∧
    (∃ s, qResetOutcome 2 "PARTITION" s) :=
  ⟨(c8_reset_dispatch 2 (by norm_num)).2.2.1 "PARTITION" (by decide) ⟨[0, 0], 0, 0⟩,
   (c8_reset_dispatch 2 (by norm_num)).2.2.2.2.2 "PARTITION" (by decide)⟩

/-! ## Claim C7: reachability invariants -/

theorem getLastD_mem {l : List ℤ} (h : l ≠ []) : l.getLastD 0 ∈ l := by
  rw [List.getLastD_eq_getLast?, List.getLast?_eq_getLast l h]
  simp [List.getLast_mem h]

/-- Every post-reset state of the bubble-sort variant satisfies the claimed
invariant. -/
theorem bResetOutcome_inv {L : ℕ} (hL : 1 ≤ L) {task : String} {s : BState}
    (h : bResetOutcome L task s) : BInv L s := by
  obtain ⟨⟨hlen, -⟩, hbr⟩ := h
  have hp : (0 ≤ s.p1 ∧ s.p1 ≤ (L : ℤ) - 1) ∧ (0 ≤ s.p2 ∧ s.p2 ≤ (L : ℤ) - 1) := by
    split_ifs at hbr with h1 h2 h3 h4 h5
    · obtain ⟨hp1, hp2⟩ := hbr; omega
    · obtain ⟨⟨a1, a2⟩, ⟨b1, b2⟩, -⟩ := hbr; omega
    · obtain ⟨⟨a1, a2⟩, ⟨b1, b2⟩, -⟩ := hbr; omega
    · obtain ⟨⟨a1, a2⟩, ⟨b1, b2⟩, -⟩ := hbr; omega
    · obtain ⟨⟨a1, a2⟩, hb⟩ := hbr
      rcases hb with hb | hb <;> omega
  exact ⟨hp.1, hp.2, hlen⟩

/-- Every post-reset state of the quicksort variant satisfies the claimed
invariant. -/
theorem qResetOutcome_inv {L : ℕ} (hL : 1 ≤ L) {task : String} {s : QState}
    (h : qResetOutcome L task s) : QInv L s := by
  obtain ⟨⟨hlen, -⟩, ⟨hslen, hsv⟩, hbr⟩ := h
  have hp : (0 ≤ s.p1 ∧ s.p1 ≤ (L : ℤ) - 1) ∧ (0 ≤ s.p2 ∧ s.p2 ≤ (L : ℤ) - 1) ∧
      (0 ≤ s.p3 ∧ s.p3 ≤ (L : ℤ) - 1) := by
    split_ifs at hbr with h1 h2 h3 h4 h5 h6 h7
    · obtain ⟨hp1, hp2, hp3⟩ := hbr; omega
    · obtain ⟨⟨a1, a2⟩, ⟨b1, b2⟩, c1⟩ := hbr; omega
    · obtain ⟨hp1, hp2, hp3⟩ := hbr; omega
    · obtain ⟨⟨a1, a2⟩, ⟨b1, b2⟩, ⟨c1, c2⟩, -⟩ := hbr; omega
    · obtain ⟨⟨a1, a2⟩, ⟨b1, b2⟩, ⟨c1, c2⟩, -⟩ := hbr; omega
    · obtain ⟨⟨a1, a2⟩, ⟨b1, b2⟩, ⟨c1, c2⟩, -⟩ := hbr; omega
    · obtain ⟨⟨a1, a2⟩, hb, c1⟩ := hbr
      rcases hb with hb | hb <;> omega
  refine ⟨hp.1, hp.2.1, hp.2.2, hlen, by omega, ?_⟩
  intro v hv
  have := hsv v hv
  omega

/-- Primitive bubble-sort actions preserve the invariant. -/
theorem bStep_inv {L : ℕ} {s t : BState} (hs : BInv L s) (h : BStep L s t) : BInv L t := by
  obtain ⟨⟨a1, a2⟩, ⟨b1, b2⟩, hlen⟩ := hs
  cases h with
  | stop => exact ⟨⟨a1, a2⟩, ⟨b1, b2⟩, hlen⟩
  | p1l hp =>
    unfold ptr1LeftPre at hp
    unfold BInv bPtr1Left
    rw [if_pos hp]
    dsimp only
    omega
  | p2l hp =>
    unfold ptr1LeftPre at hp
    unfold BInv bPtr2Left
    rw [if_pos hp]
    dsimp only
    omega
  | p1r hp =>
    unfold ptr1RightPre at hp
    unfold BInv bPtr1Right
    rw [if_pos hp]
    dsimp only
    omega
  | p2r hp =>
    unfold ptr1RightPre at hp
    unfold BInv bPtr2Right
    rw [if_pos hp]
    dsimp only
    omega
  | swap _ =>
    exact ⟨⟨a1, a2⟩, ⟨b1, b2⟩, by simpa [bSwap] using hlen⟩

/-- Primitive quicksort actions preserve the invariant. -/
theorem qStep_inv {L : ℕ} {s t : QState} (hs : QInv L s) (h : QStep L s t) : QInv L t := by
  obtain ⟨⟨a1, a2⟩, ⟨b1, b2⟩, ⟨c1, c2⟩, hlen, hmod, hmem⟩ := hs
  cases h with
  | stop => exact ⟨⟨a1, a2⟩, ⟨b1, b2⟩, ⟨c1, c2⟩, hlen, hmod, hmem⟩
  | p1l hp =>
    unfold ptr1LeftPre at hp
    unfold QInv qPtr1Left
    rw [if_pos hp]
    dsimp only
    refine ⟨by omega, by omega, by omega, hlen, hmod, hmem⟩
  | p2l hp =>
    unfold ptr1LeftPre at hp
    unfold QInv qPtr2Left
    rw [if_pos hp]
    dsimp only
    refine ⟨by omega, by omega, by omega, hlen, hmod, hmem⟩
  | p3l hp =>
    unfold ptr1LeftPre at hp
    unfold QInv qPtr3Left
    rw [if_pos hp]
    dsimp only
    refine ⟨by omega, by omega, by omega, hlen, hmod, hmem⟩
  | p1r hp =>
    unfold ptr1RightPre at hp
    unfold QInv qPtr1Right
    rw [if_pos hp]
    dsimp only
    refine ⟨by omega, by omega, by omega, hlen, hmod, hmem⟩
  | p2r hp =>
    unfold ptr1RightPre at hp
    unfold QInv qPtr2Right
    rw [if_pos hp]
    dsimp only
    refine ⟨by omega, by omega, by omega, hlen, hmod, hmem⟩
  | p3r hp =>
    unfold ptr1RightPre at hp
    unfold QInv qPtr3Right
    rw [if_pos hp]
    dsimp only
    refine ⟨by omega, by omega, by omega, hlen, hmod, hmem⟩
  | swap _ =>
    exact ⟨⟨a1, a2⟩, ⟨b1, b2⟩, ⟨c1, c2⟩, by simpa [qSwap] using hlen, hmod, hmem⟩
  | swap2 _ =>
    exact ⟨⟨a1, a2⟩, ⟨b1, b2⟩, ⟨c1, c2⟩, by simpa [qSwap2] using hlen, hmod, hmem⟩
  | swap3 _ =>
    exact ⟨⟨a1, a2⟩, ⟨b1, b2⟩, ⟨c1, c2⟩, by simpa [qSwap3] using hlen, hmod, hmem⟩
  | push =>
    unfold qPush
    dsimp only
    split_ifs with h1 h2 h2
    · refine ⟨⟨a1, a2⟩, ⟨b1, b2⟩, ⟨c1, c2⟩, hlen, by simp; omega, ?_⟩
      intro v hv
      rcases List.mem_append.mp hv with hv | hv
      · rcases List.mem_append.mp hv with hv | hv
        · exact hmem v hv
        · simp only [List.mem_cons, List.not_mem_nil, or_false] at hv
          rcases hv with rfl | rfl | rfl <;> omega
      · simp only [List.mem_cons, List.not_mem_nil, or_false] at hv
        rcases hv with rfl | rfl | rfl <;> omega
    · refine ⟨⟨a1, a2⟩, ⟨b1, b2⟩, ⟨c1, c2⟩, hlen, by simp; omega, ?_⟩
      intro v hv
      rcases List.mem_append.mp hv with hv | hv
      · exact hmem v hv
      · simp only [List.mem_cons, List.not_mem_nil, or_false] at hv
        rcases hv with rfl | rfl | rfl <;> omega
    · refine ⟨⟨a1, a2⟩, ⟨b1, b2⟩, ⟨c1, c2⟩, hlen, by simp; omega, ?_⟩
      intro v hv
      rcases List.mem_append.mp hv with hv | hv
      · exact hmem v hv
      · simp only [List.mem_cons, List.not_mem_nil, or_false] at hv
        rcases hv with rfl | rfl | rfl <;> omega
    · exact ⟨⟨a1, a2⟩, ⟨b1, b2⟩, ⟨c1, c2⟩, hlen, hmod, hmem⟩
  | pop hp =>
    unfold qPopPre at hp
    unfold qPop
    rw [if_pos hp]
    dsimp only
    have h0 : s.stack ≠ [] := by
      intro hnil
      rw [hnil] at hp
      simp at hp
    have hd1 : s.stack.dropLast.length = s.stack.length - 1 := List.length_dropLast _
    have hd2 : s.stack.dropLast.dropLast.length = s.stack.length - 2 := by
      rw [List.length_dropLast, hd1]
      omega
    have h1 : s.stack.dropLast ≠ [] := by
      intro hnil
      rw [hnil] at hd1
      simp at hd1
      omega
    have h2 : s.stack.dropLast.dropLast ≠ [] := by
      intro hnil
      rw [hnil] at hd2
      simp at hd2
      omega
    refine ⟨?_, ?_, ?_, hlen, ?_, ?_⟩
    · exact hmem _ (getLastD_mem h0)
    · exact hmem _ (List.dropLast_subset _ (getLastD_mem h1))
    · exact hmem _ (List.dropLast_subset _ (List.dropLast_subset _ (getLastD_mem h2)))
    · rw [List.length_dropLast, hd2]
      omega
    · intro v hv
      exact hmem v (List.dropLast_subset _ (List.dropLast_subset _ (List.dropLast_subset _ hv)))

/-- Claim C7 (confirmed): in both variants (constructed with `length = L ≥ 1`,
enforced by the constructor's assertion), every state reachable by a
successful `reset_env` followed by any sequence of primitive actions each
executed when its precondition holds keeps every pointer in `[0, L-1]` and the
scratchpad at length `L`, and in the quicksort variant the stack length stays
a multiple of 3 — in particular immediately after `reset_env`. -/
theorem c7_invariants (L : ℕ) (hL : 1 ≤ L) :
    (∀ s, BReach L s → BInv L s) ∧ (∀ s, QReach L s → QInv L s) := by
  constructor
  · intro s h
    induction h with
    | reset task s hout => exact bResetOutcome_inv hL hout
    | step _ hstep ih => exact bStep_inv ih hstep
  · intro s h
    induction h with
    | reset task s hout => exact qResetOutcome_inv hL hout
    | step _ hstep ih => exact qStep_inv ih hstep

/-- Witness for C7 at `L = 2`: the invariant holds for a `BUBBLESORT`
post-reset state and for a `QUICKSORT` post-reset state after one `PUSH`. -/
theorem c7_invariants_witness :
    BInv 2 ⟨[3, 1], 0, 0⟩ ∧ QInv 2 (qPush ⟨[3, 1], 0, 1, 0, []⟩) :=
  ⟨(c7_invariants 2 (by norm_num)).1 _ (BReach.reset "BUBBLESORT" _ (by decide)),
   (c7_invariants 2 (by norm_num)).2 _
     ((QReach.reset "QUICKSORT" _ (by decide)).step (QStep.push _))⟩

end ListEnvModel
